import Mathlib

/-!
Formal model of the ruida-laser repository.

Two programs are modelled:
* `src/src/udpsendruida.py` — the UDP sender (`RuidaUdp`): it splits an .rd
  job file into checksum-prefixed chunks of at most `MTU` payload bytes and
  drives a send / wait-for-single-byte-response loop per chunk
  (`_checksum`, `write`, `send`).
* `src/RudiaProxy/RuidaProxy.py` — the relay: module-level main loop
  processing datagrams against a session state (busy flag, owning address,
  capture-file sink), replying with single-byte ACK (0xc6) / NACK (0x46)
  and delimiting a stream by the end token 0xd7 or an inactivity timeout.

Bytes are modelled as natural numbers, byte strings as `List Nat`, and
network addresses as natural-number identifiers (the source only ever
compares addresses for equality).  Blocking socket reads are modelled by an
explicit script of receive events (`RecvEvent`) consumed in order; calls to
`time.sleep` are recorded as the list of slept delays, in milliseconds
(the source uses seconds as floats: 0.2, doubling, compared against 5.0;
all comparisons performed by the code are decided identically on the
millisecond integers 200·2^k, so the integer model is exact).
-/

/-- ACK byte: `RuidaProxyServer.ACK_BYTE = 0xc6`, also recognised by
`RuidaUdp.send`. -/
def ACK_BYTE : Nat := 0xc6

/-- NACK byte: `RuidaProxyServer.NACK_BYTE = 0x46`, also recognised by
`RuidaUdp.send`. -/
def NACK_BYTE : Nat := 0x46

/-- End-of-stream token byte: `RuidaProxyServer.FIN_TOKEN = "\xd7"`. -/
def FIN_TOKEN_BYTE : Nat := 0xd7

/-- `RuidaUdp.MTU = 1470`: max payload length per datagram (excluding the
2-byte checksum). -/
def MTU_DEFAULT : Nat := 1470

/-- `RuidaProxyServer.BUSY_TIMEOUT = 10000`: ends a UDP stream. -/
def BUSY_TIMEOUT : Nat := 10000

/-- `RuidaUdp._checksum(self, data, start, length)`:
`cs = sum(data[start:start+length]); b1 = cs & 0xff; b0 = (cs >> 8) & 0xff;
return bytes([b0, b1])`. -/
def _checksum (data : List Nat) (start length : Nat) : List Nat :=
  let cs := ((data.drop start).take length).sum
  [(cs >>> 8) % 256, cs % 256]

/-- The chunk size chosen by `RuidaUdp.write` at offset `start` of a job of
length `l`: `chunk_sz = l - start; if chunk_sz > self.MTU: chunk_sz = self.MTU`. -/
def chunkSz (MTU l start : Nat) : Nat :=
  if l - start > MTU then MTU else l - start

/-- The datagram built by `RuidaUdp.write` for the chunk at offset `start`:
`buf = chksum + data[start:start+chunk_sz]`. -/
def chunkBuf (MTU : Nat) (data : List Nat) (start : Nat) : List Nat :=
  let sz := chunkSz MTU data.length start
  _checksum data start sz ++ (data.drop start).take sz

/-- The ordered sequence of datagrams produced by the loop of
`RuidaUdp.write` starting at offset `start`, network effects ignored.  The
`fuel` argument bounds the iteration count; `data.length` fuel is exact for
any `MTU ≥ 1` (each iteration advances `start` by `chunk_sz ≥ 1`; with
`MTU = 0` the source loop does not terminate). -/
def writeBufs (MTU : Nat) (data : List Nat) : Nat → Nat → List (List Nat)
  | _, 0 => []
  | start, fuel+1 =>
    if start < data.length then
      chunkBuf MTU data start ::
        writeBufs MTU data (start + chunkSz MTU data.length start) fuel
    else []

/-- All datagrams produced by one call `RuidaUdp.write(data)` (offset 0,
exact fuel). -/
def writeChunks (MTU : Nat) (data : List Nat) : List (List Nat) :=
  writeBufs MTU data 0 data.length

/-- One result of the blocking `self.sock.recv(8)` call inside
`RuidaUdp.send`: either the socket timeout exception, or received bytes
(possibly the empty datagram). -/
inductive RecvEvent
  | timeout
  | ok (data : List Nat)
deriving DecidableEq

/-- Outcome of one `RuidaUdp.send` call: `returned` = the `while True`
loop exited via `break` (ACK, empty response, unknown response byte, or
recv timeout); `checksumError` = `raise IOError("checksum error")`;
`starved` = the event script ran out while the loop would have blocked in
`recv` (model artifact: the real loop would wait forever). -/
inductive SendStatus
  | returned
  | checksumError
  | starved
deriving DecidableEq

/-- Observable behaviour of one `RuidaUdp.send` call: final status, the
datagrams actually transmitted by `self.sock.send(ary)` (in order,
including retransmissions), the backoff delays slept (ms), and the
unconsumed tail of the receive-event script. -/
structure SendResult where
  status : SendStatus
  txs : List (List Nat)
  delays : List Nat
  rem : List RecvEvent
deriving DecidableEq

/-- Backoff update of `RuidaUdp.send`:
`if retry_delay_sec < retry_delay_sec_max: retry_delay_sec *= 2`
(in ms: double while below 5000; note the test precedes the doubling). -/
def nextDelay (d : Nat) : Nat := if d < 5000 then 2 * d else d

/-- `RuidaUdp.send(self, ary, retry=False)` driven by a script of receive
events.  Each loop iteration transmits `ary`, then consumes one event:
a recv timeout or an empty response breaks the loop; first byte 0x46 with
`retry` sleeps the current delay, doubles it (capped test-first) and loops;
0x46 without `retry` raises; any other first byte (0xc6 ACK included)
breaks.  The initial delay is 200 ms (`retry_delay_sec = 0.2`); the
decision inspects only `data[0]`.  `self.chunkpause` is 0.0 in the source,
so the optional inter-chunk sleep never happens and is not modelled. -/
def send (ary : List Nat) (retry : Bool) : Nat → List RecvEvent → SendResult
  | _, [] => ⟨.starved, [ary], [], []⟩
  | d, e :: events =>
    match e with
    | .timeout => ⟨.returned, [ary], [], events⟩
    | .ok [] => ⟨.returned, [ary], [], events⟩
    | .ok (b :: _) =>
      if b = 0x46 then
        if retry then
          let r := send ary retry (nextDelay d) events
          ⟨r.status, ary :: r.txs, d :: r.delays, r.rem⟩
        else ⟨.checksumError, [ary], [], events⟩
      else ⟨.returned, [ary], [], events⟩

/-- Outcome of one `RuidaUdp.write` call: `ok` = loop finished, `checksumError`
= the `IOError` from `send` propagated, `starved` = event script exhausted
mid-loop (model artifact). -/
inductive WriteStatus
  | ok
  | checksumError
  | starved
deriving DecidableEq

/-- Observable behaviour of one `RuidaUdp.write` call: final status, all
datagrams transmitted (in order, retransmissions included) and the
unconsumed receive events. -/
structure RunResult where
  status : WriteStatus
  txs : List (List Nat)
  rem : List RecvEvent
deriving DecidableEq

/-- The loop of `RuidaUdp.write(self, data)` from offset `start`:
while `start < len(data)` build the chunk datagram, call
`self.send(buf, retry=(start == 0))` (fresh initial delay 200 ms each call)
and advance by `chunk_sz`.  An `IOError` from `send` propagates and aborts
the job.  `fuel` bounds iterations as in `writeBufs`. -/
def writeRun (MTU : Nat) (data : List Nat) : Nat → Nat → List RecvEvent → RunResult
  | start, 0, events =>
    if start < data.length then ⟨.starved, [], events⟩ else ⟨.ok, [], events⟩
  | start, fuel+1, events =>
    if start < data.length then
      let r := send (chunkBuf MTU data start) (start == 0) 200 events
      match r.status with
      | .returned =>
        let w := writeRun MTU data (start + chunkSz MTU data.length start) fuel r.rem
        ⟨w.status, r.txs ++ w.txs, w.rem⟩
      | .checksumError => ⟨.checksumError, r.txs, r.rem⟩
      | .starved => ⟨.starved, r.txs, r.rem⟩
    else ⟨.ok, [], events⟩

/-- One full `RuidaUdp.write(data)` call (offset 0, exact fuel). -/
def write (MTU : Nat) (data : List Nat) (events : List RecvEvent) : RunResult :=
  writeRun MTU data 0 data.length events

/-- A receive event that makes the `send` loop terminate normally via
`break`: a recv timeout, an empty response, or a non-empty response whose
first byte is not 0x46 (this covers the ACK 0xc6 and any unknown byte). -/
def endsAttempt : RecvEvent → Bool
  | .timeout => true
  | .ok [] => true
  | .ok (b :: _) => b ≠ 0x46

/-- The sequence of the first `n` backoff delays slept by `send` when it
keeps receiving NACKs, starting from delay `d`. -/
def delaySeq : Nat → Nat → List Nat
  | _, 0 => []
  | d, n+1 => d :: delaySeq (nextDelay d) n

/-- C8: Checksum codec — for every payload slice, the 2-byte prefix
computed by `RuidaUdp._checksum` is the sum of the slice's bytes reduced
modulo 2^16 = 65536, encoded big-endian (high byte first, low byte
second). -/
theorem C8_checksum_codec (data : List Nat) (start len : Nat) :
    _checksum data start len
      = [(((data.drop start).take len).sum % 65536) / 256,
         (((data.drop start).take len).sum % 65536) % 256] := by
  have h2 : ∀ cs : Nat, cs >>> 8 % 256 = cs % 65536 / 256 := by
    intro cs
    rw [Nat.shiftRight_eq_div_pow, ← Nat.mod_mul_right_div_self]
  have h3 : ∀ cs : Nat, cs % 256 = cs % 65536 % 256 := by
    intro cs
    rw [Nat.mod_mod_of_dvd _ (by norm_num : (256:ℕ) ∣ 65536)]
  simp only [_checksum, h2]
  rw [h3 (((data.drop start).take len).sum)]

/-- C10: the decision of `RuidaUdp.send` for a non-empty response depends
only on the first of the (up to 8) received bytes: the right-hand side of
the second conjunct never mentions the tail `bs`, and the first conjunct
states the tail-independence directly.  First byte 0x46 is the NACK path
(retry or raise), any other first byte — 0xc6 (ACK) included — breaks the
loop without raising. -/
theorem C10_first_byte_decision (ary : List Nat) (retry : Bool) (d b : Nat)
    (bs bs' : List Nat) (events : List RecvEvent) :
    send ary retry d (RecvEvent.ok (b :: bs) :: events)
        = send ary retry d (RecvEvent.ok (b :: bs') :: events)
    ∧ send ary retry d (RecvEvent.ok (b :: bs) :: events)
        = (if b = 0x46 then
             if retry then
               ⟨(send ary retry (nextDelay d) events).status,
                ary :: (send ary retry (nextDelay d) events).txs,
                d :: (send ary retry (nextDelay d) events).delays,
                (send ary retry (nextDelay d) events).rem⟩
             else ⟨.checksumError, [ary], [], events⟩
           else ⟨.returned, [ary], [], events⟩) := by
  constructor
  · by_cases hb : b = 0x46 <;> simp [send, hb]
  · by_cases hb : b = 0x46 <;> by_cases hr : retry <;> simp [send, hb, hr]


/-- Auxiliary for C2: from any offset, the chunk payloads (bytes after the
2-byte checksum prefix) concatenate to the remaining job bytes, and the
chunk count is the ceiling of remaining-length over `MTU`, provided the
fuel covers the remaining length and `MTU ≥ 1`. -/
theorem writeBufs_go (mtu : Nat) (data : List Nat) (hm : 1 ≤ mtu) :
    ∀ fuel start, data.length - start ≤ fuel →
      ((writeBufs mtu data start fuel).map (fun b => b.drop 2)).flatten
          = data.drop start
      ∧ (writeBufs mtu data start fuel).length
          = (data.length - start + mtu - 1) / mtu := by
  intro fuel
  induction fuel with
  | zero =>
    intro start hle
    refine ⟨?_, ?_⟩
    · simp only [writeBufs, List.map_nil, List.flatten_nil]
      rw [List.drop_eq_nil_of_le (by omega)]
    · simp only [writeBufs, List.length_nil]
      have h0 : data.length - start = 0 := by omega
      rw [h0]
      exact (Nat.div_eq_of_lt (by omega)).symm
  | succ fuel ih =>
    intro start hle
    by_cases hlt : start < data.length
    · have hsz1 : 1 ≤ chunkSz mtu data.length start := by
        unfold chunkSz; split <;> omega
      have hsz2 : chunkSz mtu data.length start ≤ data.length - start := by
        unfold chunkSz; split <;> omega
      obtain ⟨ihj, ihl⟩ := ih (start + chunkSz mtu data.length start) (by omega)
      refine ⟨?_, ?_⟩
      · simp only [writeBufs, if_pos hlt, List.map_cons, List.flatten_cons]
        rw [ihj]
        have hdrop : (chunkBuf mtu data start).drop 2
            = (data.drop start).take (chunkSz mtu data.length start) := by
          simp [chunkBuf, _checksum]
        rw [hdrop, ← List.drop_drop, List.take_append_drop]
      · simp only [writeBufs, if_pos hlt, List.length_cons, ihl]
        unfold chunkSz at *
        by_cases hbig : data.length - start > mtu
        · rw [if_pos hbig] at *
          have e1 : data.length - (start + mtu) + mtu - 1
              = data.length - start - 1 := by omega
          have e2 : data.length - start + mtu - 1
              = (data.length - start - 1) + mtu := by omega
          rw [e1, e2, Nat.add_div_right _ (by omega)]
        · rw [if_neg hbig] at *
          have e1 : data.length - (start + (data.length - start)) = 0 := by
            omega
          have e2 : data.length - start + mtu - 1
              = (data.length - start - 1) + mtu := by omega
          rw [e1, e2, Nat.add_div_right _ (by omega)]
          rw [Nat.div_eq_of_lt (by omega), Nat.div_eq_of_lt (by omega)]
    · refine ⟨?_, ?_⟩
      · simp only [writeBufs, if_neg hlt, List.map_nil, List.flatten_nil]
        rw [List.drop_eq_nil_of_le (by omega)]
      · simp only [writeBufs, if_neg hlt, List.length_nil]
        have h0 : data.length - start = 0 := by omega
        rw [h0]
        exact (Nat.div_eq_of_lt (by omega)).symm

/-- C2: Chunk coverage — for every payload and every `mtu ≥ 1`,
concatenating in order the payload portions (bytes after the 2-byte
checksum prefix) of the chunks produced by `RuidaUdp.write` reproduces the
payload exactly; the number of chunks is `⌈len/mtu⌉ = (len + mtu - 1)/mtu`
(0 for the empty payload); and for an empty payload the write loop
transmits no datagram at all. -/
theorem C2_chunk_coverage (mtu : Nat) (data : List Nat)
    (events : List RecvEvent) (hm : 1 ≤ mtu) :
    ((writeChunks mtu data).map (fun b => b.drop 2)).flatten = data
    ∧ (writeChunks mtu data).length = (data.length + mtu - 1) / mtu
    ∧ (data = [] → (write mtu data events).txs = []) := by
  obtain ⟨hj, hl⟩ := writeBufs_go mtu data hm data.length 0 (by omega)
  refine ⟨?_, ?_, ?_⟩
  · simpa [writeChunks] using hj
  · simpa [writeChunks] using hl
  · intro hnil
    subst hnil
    simp [write, writeRun]

/-- Witness for C2 at `mtu = 3`, payload `[1,2,3,4]` (two chunks: payload
sizes 3 and 1). -/
theorem C2_chunk_coverage_witness :
    1 ≤ 3
    ∧ (((writeChunks 3 [1,2,3,4]).map (fun b => b.drop 2)).flatten = [1,2,3,4]
       ∧ (writeChunks 3 [1,2,3,4]).length = ([1,2,3,4].length + 3 - 1) / 3
       ∧ ([1,2,3,4] = []
          → (write 3 [1,2,3,4] [RecvEvent.timeout]).txs = [])) :=
  ⟨by decide, C2_chunk_coverage 3 [1,2,3,4] [RecvEvent.timeout] (by decide)⟩

/-- C5: Fatal NACK on later chunks — at any non-first chunk
(`start ≠ 0`, so `write` passes `retry=False`), a response whose first
byte is 0x46 makes `send` raise the checksum error at once: the chunk is
transmitted exactly once (no retransmission, no delay slept), the
exception propagates through `write`, and no further chunk of the job is
sent (the run ends right there with status `checksumError`). -/
theorem C5_fatal_nack_on_later_chunk (mtu : Nat) (data : List Nat)
    (start fuel : Nat) (bs : List Nat) (events : List RecvEvent)
    (h0 : start ≠ 0) (h1 : start < data.length) :
    send (chunkBuf mtu data start) false 200
        (RecvEvent.ok (0x46 :: bs) :: events)
      = ⟨.checksumError, [chunkBuf mtu data start], [], events⟩
    ∧ writeRun mtu data start (fuel+1) (RecvEvent.ok (0x46 :: bs) :: events)
      = ⟨.checksumError, [chunkBuf mtu data start], events⟩ := by
  have hsend : send (chunkBuf mtu data start) false 200
      (RecvEvent.ok (0x46 :: bs) :: events)
      = ⟨.checksumError, [chunkBuf mtu data start], [], events⟩ := by
    simp [send]
  have hbeq : (start == 0) = false := beq_eq_false_iff_ne.mpr h0
  refine ⟨hsend, ?_⟩
  simp [writeRun, h1, hbeq, hsend]

/-- Witness for C5: second chunk of the job `[7,8]` with `mtu = 1`,
NACK response. -/
theorem C5_fatal_nack_on_later_chunk_witness :
    send (chunkBuf 1 [7,8] 1) false 200 [RecvEvent.ok [0x46]]
      = ⟨.checksumError, [chunkBuf 1 [7,8] 1], [], []⟩
    ∧ writeRun 1 [7,8] 1 1 [RecvEvent.ok [0x46]]
      = ⟨.checksumError, [chunkBuf 1 [7,8] 1], []⟩ :=
  C5_fatal_nack_on_later_chunk 1 [7,8] 1 0 [] [] (by decide) (by decide)

/-- C7 counterexample: strict ACK-gating does not hold.  Job `[0,1]` with
`mtu = 1` has two chunks, `[0,0,0]` and `[0,1,1]`.  The event script
contains a single recv timeout and nothing else, so chunk 1 is never
ACKed; yet the run transmits both chunks: the timeout merely breaks the
`send` loop (`except ...: break`) and `write` proceeds to the next chunk.
This refutes "a timeout ... on chunk N does not lead to chunk N+1 being
sent". -/
theorem C7_counterexample :
    (writeRun 1 [0,1] 0 2 [RecvEvent.timeout]).txs = [[0,0,0], [0,1,1]]
    ∧ chunkBuf 1 [0,1] 1 = [0,1,1]
    ∧ (writeRun 1 [0,1] 0 2 [RecvEvent.timeout]).status
        = WriteStatus.starved := by decide

/-- C7 amended: chunk N+1 is transmitted exactly when chunk N's `send`
loop terminates without raising, which happens on an ACK (0xc6), an empty
response, an unknown response byte, or a recv timeout — not only on ACK.
A NACK (0x46) on a non-first chunk raises, so nothing after chunk N is
ever transmitted; any loop-ending response (`endsAttempt`) transmits
chunk N once and continues the run with chunk N+1 on the remaining
events. -/
theorem C7_amended_sequencing :
    (∀ (mtu : Nat) (data : List Nat) (start fuel : Nat)
        (events : List RecvEvent) (bs : List Nat),
      start ≠ 0 → start < data.length →
      writeRun mtu data start (fuel+1) (RecvEvent.ok (0x46 :: bs) :: events)
        = ⟨.checksumError, [chunkBuf mtu data start], events⟩)
    ∧ (∀ (mtu : Nat) (data : List Nat) (start fuel : Nat)
        (events : List RecvEvent) (e : RecvEvent),
      endsAttempt e = true → start < data.length →
      writeRun mtu data start (fuel+1) (e :: events)
        = ⟨(writeRun mtu data (start + chunkSz mtu data.length start)
              fuel events).status,
           chunkBuf mtu data start
             :: (writeRun mtu data (start + chunkSz mtu data.length start)
                  fuel events).txs,
           (writeRun mtu data (start + chunkSz mtu data.length start)
              fuel events).rem⟩) := by
  constructor
  · intro mtu data start fuel events bs h0 h1
    have hbeq : (start == 0) = false := beq_eq_false_iff_ne.mpr h0
    have hsend : send (chunkBuf mtu data start) false 200
        (RecvEvent.ok (0x46 :: bs) :: events)
        = ⟨.checksumError, [chunkBuf mtu data start], [], events⟩ := by
      simp [send]
    simp [writeRun, h1, hbeq, hsend]
  · intro mtu data start fuel events e he h1
    have hsend : send (chunkBuf mtu data start) (start == 0) 200 (e :: events)
        = ⟨.returned, [chunkBuf mtu data start], [], events⟩ := by
      cases e with
      | timeout => simp [send]
      | ok l =>
        cases l with
        | nil => simp [send]
        | cons b bs =>
          have hb : ¬ b = 0x46 := by simpa [endsAttempt] using he
          simp [send, hb]
    simp [writeRun, h1, hsend]

/-- Witness for C7 amended: a NACK on the second chunk of `[9,9]` aborts;
a timeout on the first chunk of `[5,6]` advances to the second chunk. -/
theorem C7_amended_sequencing_witness :
    writeRun 1 [9,9] 1 1 [RecvEvent.ok [0x46, 5]]
      = ⟨.checksumError, [chunkBuf 1 [9,9] 1], []⟩
    ∧ writeRun 1 [5,6] 0 1 [RecvEvent.timeout]
      = ⟨(writeRun 1 [5,6] 1 0 []).status,
         chunkBuf 1 [5,6] 0 :: (writeRun 1 [5,6] 1 0 []).txs,
         (writeRun 1 [5,6] 1 0 []).rem⟩ :=
  ⟨C7_amended_sequencing.1 1 [9,9] 1 0 [] [5] (by decide) (by decide),
   C7_amended_sequencing.2 1 [5,6] 0 0 [] RecvEvent.timeout rfl (by decide)⟩

/-- Auxiliary for C6: `send` with `retry=True` against `n` consecutive
NACKs followed by an ACK transmits the chunk `n+1` times, sleeps the
backoff sequence `delaySeq d n`, and returns normally. -/
theorem send_nack_run (ary : List Nat) : ∀ (n d : Nat),
    send ary true d
        (List.replicate n (RecvEvent.ok [0x46]) ++ [RecvEvent.ok [0xc6]])
      = ⟨.returned, List.replicate (n+1) ary, delaySeq d n, []⟩ := by
  intro n
  induction n with
  | zero => intro d; simp [send, delaySeq]
  | succ n ih =>
    intro d
    simp [List.replicate_succ, List.cons_append, send, ih (nextDelay d),
      delaySeq]

/-- Auxiliary for C6: every value in a backoff-delay sequence stays inside
any list closed under `nextDelay` that contains the start value. -/
theorem delaySeq_mem_of_closed (S : List Nat)
    (hS : ∀ d ∈ S, nextDelay d ∈ S) :
    ∀ (n d : Nat), d ∈ S → ∀ x ∈ delaySeq d n, x ∈ S := by
  intro n
  induction n with
  | zero => intro d _ x hx; simp [delaySeq] at hx
  | succ n ih =>
    intro d hd x hx
    rw [delaySeq] at hx
    rcases List.mem_cons.mp hx with rfl | hx
    · exact hd
    · exact ih (nextDelay d) (hS _ hd) x hx

/-- Auxiliary for C6: consecutive backoff delays obey the update law
`b = nextDelay a`. -/
theorem delaySeq_chain : ∀ (n d : Nat),
    List.Chain' (fun a b => b = nextDelay a) (delaySeq d n) := by
  intro n
  induction n with
  | zero => intro d; simp [delaySeq]
  | succ n ih =>
    intro d
    rw [delaySeq]
    refine List.chain'_cons'.mpr ⟨?_, ih (nextDelay d)⟩
    intro y hy
    cases n with
    | zero => simp [delaySeq] at hy
    | succ m =>
      rw [delaySeq, List.head?_cons, Option.mem_some_iff] at hy
      omega

/-- C6 counterexample: the delays are NOT all ≤ 5000 ms.  Six consecutive
NACKs on the first chunk produce the slept delays
200, 400, 800, 1600, 3200, 6400 ms: the cap test
`if retry_delay_sec < retry_delay_sec_max: retry_delay_sec *= 2` runs
after the sleep and before the comparison can stop the doubling, so the
sixth delay is 6400 ms > 5000 ms, refuting "every delay in the sequence is
<= 5000 ms". -/
theorem C6_counterexample :
    (send [0] true 200
        (List.replicate 6 (RecvEvent.ok [0x46]) ++ [RecvEvent.ok [0xc6]])).delays
      = [200, 400, 800, 1600, 3200, 6400]
    ∧ 6400 ∈ (send [0] true 200
        (List.replicate 6 (RecvEvent.ok [0x46]) ++ [RecvEvent.ok [0xc6]])).delays
    ∧ 5000 < 6400 := by decide

/-- C6 amended: for the first chunk, every consecutive NACK triggers a
retransmission of the same chunk after a backoff delay; the delays start
at 200 ms, follow the update law `nextDelay` (double while the previous
delay is below 5000 ms, constant afterwards), are non-decreasing, and all
lie in [200 ms, 6400 ms] — the effective ceiling is 6400 ms, not 5000 ms —
continuing for any number `n` of NACKs until the ACK ends the loop. -/
theorem C6_first_chunk_backoff (n : Nat) (ary : List Nat) :
    send ary true 200
        (List.replicate n (RecvEvent.ok [0x46]) ++ [RecvEvent.ok [0xc6]])
      = ⟨.returned, List.replicate (n+1) ary, delaySeq 200 n, []⟩
    ∧ List.Chain' (fun a b => b = nextDelay a) (delaySeq 200 n)
    ∧ List.Chain' (fun a b => a ≤ b) (delaySeq 200 n)
    ∧ (∀ x ∈ delaySeq 200 n, 200 ≤ x ∧ x ≤ 6400)
    ∧ (0 < n → (delaySeq 200 n).head? = some 200) := by
  refine ⟨send_nack_run ary n 200, delaySeq_chain n 200, ?_, ?_, ?_⟩
  · refine (delaySeq_chain n 200).imp ?_
    intro a b h
    subst h
    unfold nextDelay
    split <;> omega
  · intro x hx
    have hmem := delaySeq_mem_of_closed [200, 400, 800, 1600, 3200, 6400]
      (by decide) n 200 (by decide) x hx
    have : x = 200 ∨ x = 400 ∨ x = 800 ∨ x = 1600 ∨ x = 3200 ∨ x = 6400 := by
      simpa using hmem
    omega
  · intro hn
    cases n with
    | zero => omega
    | succ m => rfl

/-- Witness for C6 amended at `n = 2` NACKs, chunk `[1]`. -/
theorem C6_first_chunk_backoff_witness :
    send [1] true 200
        (List.replicate 2 (RecvEvent.ok [0x46]) ++ [RecvEvent.ok [0xc6]])
      = ⟨.returned, List.replicate 3 [1], delaySeq 200 2, []⟩ :=
  (C6_first_chunk_backoff 2 [1]).1

/-- A network address, as compared by the proxy (`sender_addr`); the
source only ever tests addresses for equality, so an abstract identifier
suffices. -/
abbrev Addr := Nat

/-- The relay's active output record, `proxy.output = (file, sender_addr,
filename)`: the owning address and the bytes written to the capture sink
so far (the capture-file name, `"out_" + timestamp + ".rd"`, plays no role
in any claim and is omitted). -/
structure ProxyOutput where
  addr : Addr
  sink : List Nat
deriving DecidableEq

/-- The relay session state of `RuidaProxy.py`: the module/instance
variables `proxy.busy` and `proxy.output` (`none` when no sink is open).
In every state the source can reach, `busy = true` exactly when an output
record exists. -/
structure ProxyState where
  busy : Bool
  output : Option ProxyOutput
deriving DecidableEq

/-- An observable I/O action of one main-loop iteration of the relay:
`sent dest b` = a single-byte reply `sendto`-call addressed to `dest`;
`forwarded p` = a datagram with payload `p` transmitted on the opposite
(laser-facing) socket; `sinkWrite p` = `proxy.output[0].write(data)`;
`sinkClosed` = `proxy.output[0].close()`.  The constructor `forwarded` is
part of the alphabet because the spec's Relay Forwarder requires it; the
transcribed `udp_sock` branch of the source never performs it. -/
inductive ProxyEvent
  | sent (dest : Addr) (b : Nat)
  | forwarded (payload : List Nat)
  | sinkWrite (payload : List Nat)
  | sinkClosed
deriving DecidableEq

/-- `RuidaProxyServer.find_end_token(data)`: returns `True` when
`FIN_TOKEN in data`, otherwise falls off the end of the function (the bare
`False` on line 64 is an expression statement, not a `return`), so Python
returns `None`.  Modelled as `Option Bool`. -/
def find_end_token (data : List Nat) : Option Bool :=
  if FIN_TOKEN_BYTE ∈ data then some true else none

/-- Python truthiness of the `ending` value as used in `if ending:`:
`None` is falsy, `True` is truthy. -/
def truthy : Option Bool → Bool
  | some b => b
  | none => false

/-- One iteration of the relay's `udp_sock` datagram branch
(`RuidaProxy.py` lines 124-149), the epilogue `if ending:` (close sink,
`output = None`, `busy = False`) folded into each path that computes
`ending`.  Busy and owner matches: write to sink, ACK to the sender, test
for the end token.  Busy and a different sender: NACK to the sender,
nothing else.  Not busy: create the output record for this sender, write,
ACK, test for the end token.  The `busy` with `output = none`
combination is unreachable from the states this step produces (the source
would raise on `None[0]`); the model returns the state unchanged there. -/
def udpStep (st : ProxyState) (sender : Addr) (data : List Nat) :
    ProxyState × List ProxyEvent :=
  if st.busy then
    match st.output with
    | some out =>
      if out.addr = sender then
        if truthy (find_end_token data) then
          (⟨false, none⟩,
           [ProxyEvent.sinkWrite data, ProxyEvent.sent sender ACK_BYTE,
            ProxyEvent.sinkClosed])
        else
          (⟨true, some ⟨out.addr, out.sink ++ data⟩⟩,
           [ProxyEvent.sinkWrite data, ProxyEvent.sent sender ACK_BYTE])
      else
        (st, [ProxyEvent.sent sender NACK_BYTE])
    | none => (st, [])
  else
    if truthy (find_end_token data) then
      (⟨false, none⟩,
       [ProxyEvent.sinkWrite data, ProxyEvent.sent sender ACK_BYTE,
        ProxyEvent.sinkClosed])
    else
      (⟨true, some ⟨sender, data⟩⟩,
       [ProxyEvent.sinkWrite data, ProxyEvent.sent sender ACK_BYTE])

/-- C1: At-most-one-owner — while the session is busy with owner `A`, a
datagram from any other address `B` produces exactly one reply event, the
NACK byte to `B`, and the returned state is the input state itself: busy
flag, owner and sink contents unchanged, nothing forwarded, nothing
written to the sink. -/
theorem C1_at_most_one_owner (st : ProxyState) (out : ProxyOutput)
    (A B : Addr) (data : List Nat)
    (hbusy : st.busy = true) (hout : st.output = some out)
    (hA : out.addr = A) (hBA : B ≠ A) :
    udpStep st B data = (st, [ProxyEvent.sent B NACK_BYTE]) := by
  have hne : ¬ out.addr = B := by
    rw [hA]
    exact fun h => hBA h.symm
  simp [udpStep, hbusy, hout, hne]

/-- Witness for C1: busy session owned by address 1 with sink `[5]`;
address 2 sends `[9]`. -/
theorem C1_at_most_one_owner_witness :
    udpStep ⟨true, some ⟨1, [5]⟩⟩ 2 [9]
      = (⟨true, some ⟨1, [5]⟩⟩, [ProxyEvent.sent 2 NACK_BYTE]) :=
  C1_at_most_one_owner ⟨true, some ⟨1, [5]⟩⟩ ⟨1, [5]⟩ 1 2 [9]
    rfl rfl rfl (by decide)

/-- C3: End-token termination — a datagram from the owner whose payload
contains the byte 0xd7 anywhere is written to the sink and ACKed, then
the sink is closed and the session returns to idle
(`busy = False, output = None`), whatever the rest of the payload and the
token's offset. -/
theorem C3_end_token_termination (st : ProxyState) (out : ProxyOutput)
    (data : List Nat)
    (hbusy : st.busy = true) (hout : st.output = some out)
    (hd7 : FIN_TOKEN_BYTE ∈ data) :
    udpStep st out.addr data
      = (⟨false, none⟩,
         [ProxyEvent.sinkWrite data, ProxyEvent.sent out.addr ACK_BYTE,
          ProxyEvent.sinkClosed]) := by
  have hend : truthy (find_end_token data) = true := by
    simp [find_end_token, truthy, hd7]
  simp [udpStep, hbusy, hout, hend]

/-- Witness for C3: owner 1 sends `[1, 0xd7, 2]` (token mid-payload). -/
theorem C3_end_token_termination_witness :
    FIN_TOKEN_BYTE ∈ [1, 0xd7, 2]
    ∧ udpStep ⟨true, some ⟨1, [4]⟩⟩ 1 [1, 0xd7, 2]
      = (⟨false, none⟩,
         [ProxyEvent.sinkWrite [1, 0xd7, 2], ProxyEvent.sent 1 ACK_BYTE,
          ProxyEvent.sinkClosed]) :=
  ⟨by decide,
   C3_end_token_termination ⟨true, some ⟨1, [4]⟩⟩ ⟨1, [4]⟩ [1, 0xd7, 2]
     rfl rfl (by decide)⟩

/-- C9 failing input: an idle relay accepts the datagram `[1, 2]` from
address 0 — the admission logic admits it — yet the events it performs are
only the sink write and the ACK: no branch of the source's `udp_sock`
handler contains a `sendto` toward the opposite (laser-facing) socket, so
no `ProxyEvent.forwarded` is ever produced, for this or any accepted
datagram. -/
theorem C9_no_forwarding :
    udpStep ⟨false, none⟩ 0 [1, 2]
      = (⟨true, some ⟨0, [1, 2]⟩⟩,
         [ProxyEvent.sinkWrite [1, 2], ProxyEvent.sent 0 ACK_BYTE])
    ∧ ∀ p : List Nat,
        ProxyEvent.forwarded p ∉ (udpStep ⟨false, none⟩ 0 [1, 2]).2 := by
  constructor
  · decide
  · intro p
    simp [udpStep, truthy, find_end_token, FIN_TOKEN_BYTE, ACK_BYTE]

/-- Modelled from the spec: the Stream Session state of §4.4,
`Idle` or `Busy(owner, sink, lastActivity)`.  The implementation that
would decide claim C4 is missing from the source: in `RuidaProxy.py`
lines 85-96 the `udp_sock_world` timeout branch consists only of comments
and an `if stream_busy:` with an empty suite, so the module holds no code
for the transition (and cannot even be parsed by Python); the state
machine here follows the words of spec §4.4. -/
structure SpecSession where
  owner : Addr
  sink : List Nat
  lastActivity : Nat
deriving DecidableEq

/-- Modelled from the spec: the two Stream Session states of §4.4. -/
inductive SpecState
  | idle
  | busy (s : SpecSession)
deriving DecidableEq

/-- Modelled from the spec: one datagram arrival against the §4.4 state
machine (timeout checked lazily, on arrival only).  `Idle`: any datagram
starts a new session, is forwarded, written and ACKed.  `Busy`, timeout
exceeded and a different sender: the stale session is forcibly terminated
— sink closed, a synthetic end-token datagram forwarded on its behalf —
then a brand-new session starts for the new sender as in the `Idle`
transition.  Otherwise `Busy`: owner datagrams are forwarded, written and
ACKed (session cleared when the payload contains the end token);
non-owner datagrams are NACKed and dropped. -/
def specSessionStep (st : SpecState) (now timeout : Nat) (sender : Addr)
    (data : List Nat) : SpecState × List ProxyEvent :=
  match st with
  | .idle =>
    (.busy ⟨sender, data, now⟩,
     [ProxyEvent.forwarded data, ProxyEvent.sinkWrite data,
      ProxyEvent.sent sender ACK_BYTE])
  | .busy s =>
    if now - s.lastActivity > timeout ∧ sender ≠ s.owner then
      (.busy ⟨sender, data, now⟩,
       [ProxyEvent.sinkClosed, ProxyEvent.forwarded [FIN_TOKEN_BYTE],
        ProxyEvent.forwarded data, ProxyEvent.sinkWrite data,
        ProxyEvent.sent sender ACK_BYTE])
    else
      if sender = s.owner then
        if FIN_TOKEN_BYTE ∈ data then
          (.idle,
           [ProxyEvent.forwarded data, ProxyEvent.sinkWrite data,
            ProxyEvent.sent sender ACK_BYTE, ProxyEvent.sinkClosed])
        else
          (.busy ⟨s.owner, s.sink ++ data, now⟩,
           [ProxyEvent.forwarded data, ProxyEvent.sinkWrite data,
            ProxyEvent.sent sender ACK_BYTE])
      else
        (.busy s, [ProxyEvent.sent sender NACK_BYTE])

/-- C4 (against the spec-modelled machine; the source's branch is an empty
stub): a busy session whose last activity lies more than `timeout` in the
past, upon a datagram from a different address `B`, closes the old sink,
forwards a synthetic end-token datagram to the laser-facing side, and
starts a brand-new busy session owned by `B` whose datagram is forwarded
and ACKed. -/
theorem C4_timeout_supersession (s : SpecSession) (now timeout : Nat)
    (B : Addr) (data : List Nat)
    (htime : now - s.lastActivity > timeout) (hB : B ≠ s.owner) :
    specSessionStep (.busy s) now timeout B data
      = (.busy ⟨B, data, now⟩,
         [ProxyEvent.sinkClosed, ProxyEvent.forwarded [FIN_TOKEN_BYTE],
          ProxyEvent.forwarded data, ProxyEvent.sinkWrite data,
          ProxyEvent.sent B ACK_BYTE]) := by
  simp [specSessionStep, htime, hB]

/-- Witness for C4: owner 1, last activity at 0 ms, timeout 10000 ms
(`BUSY_TIMEOUT`), datagram `[9]` from address 2 at 20000 ms. -/
theorem C4_timeout_supersession_witness :
    20000 - 0 > BUSY_TIMEOUT
    ∧ specSessionStep (.busy ⟨1, [3], 0⟩) 20000 BUSY_TIMEOUT 2 [9]
      = (.busy ⟨2, [9], 20000⟩,
         [ProxyEvent.sinkClosed, ProxyEvent.forwarded [FIN_TOKEN_BYTE],
          ProxyEvent.forwarded [9], ProxyEvent.sinkWrite [9],
          ProxyEvent.sent 2 ACK_BYTE]) :=
  ⟨by decide,
   C4_timeout_supersession ⟨1, [3], 0⟩ 20000 BUSY_TIMEOUT 2 [9]
     (by decide) (by decide)⟩
